import Mathlib

/-!
Verification of the chunking-and-review-aggregation pipeline of
`entrypoint.py` (gpt-code-review-action).

Python strings are modelled as lists of characters (`PyString`); the
completion service is abstracted as a pure oracle from a chat request
(system instruction and user content) to the returned text, and network
requests are collected into explicit traces so that claims about which
requests are issued can be stated.
-/

/-- Characters of a Python string: Python `str` values are modelled as
lists of characters. -/
abbrev PyString := List Char

/-- Embedding of `chunk_string` for a positive chunk size: the loop
`for i in range(0, len(input_string), chunk_size)` appends the slice
`input_string[i:i + chunk_size]` at each step, which is equivalent to
repeatedly taking the first `chunk_size` characters and recursing on the
rest while the remainder is non-empty.  The `0 < chunk_size` guard makes
the recursion total; the behaviour of the Python code for
`chunk_size ≤ 0` (where `range` itself decides) is captured separately
by `chunk_string_checked`. -/
def chunk_string (input_string : PyString) (chunk_size : Nat) : List PyString :=
  if h : 0 < chunk_size ∧ input_string ≠ [] then
    input_string.take chunk_size :: chunk_string (input_string.drop chunk_size) chunk_size
  else
    []
termination_by input_string.length
decreasing_by
  simp only [List.length_drop]
  have h1 := h.1
  have h2 : input_string.length ≠ 0 := fun hlen => h.2 (List.length_eq_zero.mp hlen)
  omega

/-- Embedding of `chunk_string` including the semantics of `range` for a
non-positive step: `range(0, len(s), 0)` raises `ValueError`, and
`range(0, len(s), step)` with `step < 0` is empty (the loop body never
runs), so the function silently returns the empty list. -/
def chunk_string_checked (input_string : PyString) (chunk_size : Int) :
    Except PyString (List PyString) :=
  if chunk_size = 0 then
    Except.error ("range() arg 3 must not be zero".toList)
  else if chunk_size < 0 then
    Except.ok []
  else
    Except.ok (chunk_string input_string chunk_size.toNat)

/-- Unfolding lemma for `chunk_string` on a non-empty input with a
positive chunk size. -/
theorem chunk_string_pos_cons (s : PyString) (n : Nat) (hn : 0 < n) (hs : s ≠ []) :
    chunk_string s n = s.take n :: chunk_string (s.drop n) n := by
  rw [chunk_string]
  simp [hn, hs]

/-- `chunk_string` on the empty string is the empty list. -/
theorem chunk_string_nil (n : Nat) : chunk_string [] n = [] := by
  rw [chunk_string]
  simp

/-- Concatenation round-trip for the chunking loop, by induction on a
bound for the length of the input. -/
theorem chunk_join_aux (n : Nat) (hn : 0 < n) :
    ∀ (k : Nat) (s : PyString), s.length ≤ k → (chunk_string s n).flatten = s := by
  intro k
  induction k with
  | zero =>
    intro s hs
    have hnil : s = [] := List.length_eq_zero.mp (Nat.le_zero.mp hs)
    subst hnil
    rw [chunk_string_nil]
    rfl
  | succ k ih =>
    intro s hs
    by_cases hsnil : s = []
    · subst hsnil
      rw [chunk_string_nil]
      rfl
    · rw [chunk_string_pos_cons s n hn hsnil, List.flatten_cons, ih (s.drop n) ?_,
          List.take_append_drop]
      have h0 : s.length ≠ 0 := fun h => hsnil (List.length_eq_zero.mp h)
      simp only [List.length_drop]
      omega

/-- Every chunk produced by the loop has length at most the chunk size. -/
theorem chunk_le_aux (n : Nat) (hn : 0 < n) :
    ∀ (k : Nat) (s : PyString), s.length ≤ k → ∀ c ∈ chunk_string s n, c.length ≤ n := by
  intro k
  induction k with
  | zero =>
    intro s hs
    have hnil : s = [] := List.length_eq_zero.mp (Nat.le_zero.mp hs)
    subst hnil
    rw [chunk_string_nil]
    intro c hc
    exact absurd hc (List.not_mem_nil c)
  | succ k ih =>
    intro s hs
    by_cases hsnil : s = []
    · subst hsnil
      rw [chunk_string_nil]
      intro c hc
      exact absurd hc (List.not_mem_nil c)
    · rw [chunk_string_pos_cons s n hn hsnil]
      intro c hc
      rcases List.mem_cons.mp hc with hc | hc
      · subst hc
        simp [List.length_take]
      · refine ih (s.drop n) ?_ c hc
        have h0 : s.length ≠ 0 := fun h => hsnil (List.length_eq_zero.mp h)
        simp only [List.length_drop]
        omega

/-- Every chunk other than the last (every member of `dropLast`) has
length exactly the chunk size. -/
theorem chunk_full_aux (n : Nat) (hn : 0 < n) :
    ∀ (k : Nat) (s : PyString), s.length ≤ k →
      ∀ c ∈ (chunk_string s n).dropLast, c.length = n := by
  intro k
  induction k with
  | zero =>
    intro s hs
    have hnil : s = [] := List.length_eq_zero.mp (Nat.le_zero.mp hs)
    subst hnil
    rw [chunk_string_nil]
    intro c hc
    exact absurd hc (List.not_mem_nil c)
  | succ k ih =>
    intro s hs
    by_cases hsnil : s = []
    · subst hsnil
      rw [chunk_string_nil]
      intro c hc
      exact absurd hc (List.not_mem_nil c)
    · have hdrop : (s.drop n).length ≤ k := by
        have h0 : s.length ≠ 0 := fun hh => hsnil (List.length_eq_zero.mp hh)
        simp only [List.length_drop]
        omega
      rw [chunk_string_pos_cons s n hn hsnil]
      by_cases hrest : chunk_string (s.drop n) n = []
      · rw [hrest]
        intro c hc
        exact absurd hc (List.not_mem_nil c)
      · rw [List.dropLast_cons_of_ne_nil hrest]
        intro c hc
        rcases List.mem_cons.mp hc with hc | hc
        · subst hc
          have hdne : s.drop n ≠ [] := by
            intro hde
            exact hrest (by rw [hde, chunk_string_nil])
          have hlen : n < s.length := List.length_lt_of_drop_ne_nil hdne
          simp [List.length_take, Nat.min_eq_left (Nat.le_of_lt hlen)]
        · exact ih (s.drop n) hdrop c hc

/-- The number of chunks: for a positive chunk size the loop runs
`ceil(len(s) / n)` times, which over natural numbers is
`(len(s) + n - 1) / n`. -/
theorem chunk_count_aux (n : Nat) (hn : 0 < n) :
    ∀ (k : Nat) (s : PyString), s.length ≤ k →
      (chunk_string s n).length = (s.length + n - 1) / n := by
  intro k
  induction k with
  | zero =>
    intro s hs
    have hnil : s = [] := List.length_eq_zero.mp (Nat.le_zero.mp hs)
    subst hnil
    rw [chunk_string_nil]
    simp only [List.length_nil, Nat.zero_add]
    rw [Nat.div_eq_of_lt (show n - 1 < n by omega)]
  | succ k ih =>
    intro s hs
    by_cases hsnil : s = []
    · subst hsnil
      rw [chunk_string_nil]
      simp only [List.length_nil, Nat.zero_add]
      rw [Nat.div_eq_of_lt (show n - 1 < n by omega)]
    · have h0 : s.length ≠ 0 := fun hh => hsnil (List.length_eq_zero.mp hh)
      have hdrop : (s.drop n).length ≤ k := by
        simp only [List.length_drop]
        omega
      rw [chunk_string_pos_cons s n hn hsnil]
      simp only [List.length_cons, ih (s.drop n) hdrop, List.length_drop]
      by_cases hle : s.length ≤ n
      · have e1 : s.length - n + n - 1 = n - 1 := by omega
        have e2 : s.length + n - 1 = s.length - 1 + n := by omega
        rw [e1, e2, Nat.add_div_right _ hn,
            Nat.div_eq_of_lt (show n - 1 < n by omega),
            Nat.div_eq_of_lt (show s.length - 1 < n by omega)]
      · have e1 : s.length - n + n - 1 = s.length - 1 := by omega
        have e2 : s.length + n - 1 = s.length - 1 + n := by omega
        rw [e1, e2, Nat.add_div_right _ hn]

/-- C1: for every string `s` and every positive chunk size `n`,
concatenating the list returned by `chunk_string s n` in order reproduces
`s` exactly (no overlap, no loss). -/
theorem chunk_string_roundtrip (s : PyString) (n : Nat) (hn : 0 < n) :
    (chunk_string s n).flatten = s :=
  chunk_join_aux n hn s.length s (Nat.le_refl _)

/-- Witness for C1 at a concrete input. -/
theorem chunk_string_roundtrip_witness :
    0 < 2 ∧ (chunk_string "abcde".toList 2).flatten = "abcde".toList :=
  ⟨by decide, chunk_string_roundtrip "abcde".toList 2 (by decide)⟩

/-- C2: for every string `s` and positive chunk size `n`, every chunk has
length at most `n`, and every chunk except possibly the last (every
member of `dropLast`) has length exactly `n`. -/
theorem chunk_string_bound (s : PyString) (n : Nat) (hn : 0 < n) :
    (∀ c ∈ chunk_string s n, c.length ≤ n)
      ∧ ∀ c ∈ (chunk_string s n).dropLast, c.length = n :=
  ⟨chunk_le_aux n hn s.length s (Nat.le_refl _),
   chunk_full_aux n hn s.length s (Nat.le_refl _)⟩

/-- Witness for C2 at a concrete input. -/
theorem chunk_string_bound_witness :
    0 < 2 ∧ ((∀ c ∈ chunk_string "abcde".toList 2, c.length ≤ 2)
      ∧ ∀ c ∈ (chunk_string "abcde".toList 2).dropLast, c.length = 2) :=
  ⟨by decide, chunk_string_bound "abcde".toList 2 (by decide)⟩

/-- C3: for every positive chunk size `n`, `chunk_string s n` produces
exactly `ceil(len(s) / n)` chunks — over natural numbers
`(s.length + n - 1) / n`, which is `0` for the empty string — and the
empty string yields the empty list of chunks. -/
theorem chunk_string_count (s : PyString) (n : Nat) (hn : 0 < n) :
    (chunk_string s n).length = (s.length + n - 1) / n
      ∧ chunk_string ([] : PyString) n = [] :=
  ⟨chunk_count_aux n hn s.length s (Nat.le_refl _), chunk_string_nil n⟩

/-- Witness for C3 at a concrete input. -/
theorem chunk_string_count_witness :
    0 < 2 ∧ ((chunk_string "abcde".toList 2).length = ("abcde".toList.length + 2 - 1) / 2
      ∧ chunk_string ([] : PyString) 2 = []) :=
  ⟨by decide, chunk_string_count "abcde".toList 2 (by decide)⟩

/-- C7 counterexample: with a negative chunk size the chunker does not
fail fast: `range(0, len(s), -1)` is empty, so `chunk_string("a", -1)`
silently returns the empty list instead of being rejected. -/
theorem chunk_string_checked_neg_cex :
    chunk_string_checked ['a'] (-1) = Except.ok []
      ∧ ¬ ∃ msg, chunk_string_checked ['a'] (-1) = Except.error msg := by
  constructor
  · rfl
  · rintro ⟨msg, hmsg⟩
    rw [show chunk_string_checked ['a'] (-1) = Except.ok [] from rfl] at hmsg
    exact Except.noConfusion hmsg

/-- C7 amended: only a zero chunk size is rejected before partitioning
(`range` raises `ValueError` for a zero step); a negative chunk size is
not rejected, and the chunker silently returns the empty chunk list for
every input. -/
theorem chunk_string_checked_nonpos (s : PyString) (c : Int) (h : c ≤ 0) :
    (c = 0 → chunk_string_checked s c
        = Except.error ("range() arg 3 must not be zero".toList))
      ∧ (c < 0 → chunk_string_checked s c = Except.ok []) := by
  constructor
  · intro h0
    simp [chunk_string_checked, h0]
  · intro hneg
    have hne : ¬ (c = 0) := by omega
    simp [chunk_string_checked, hne, hneg]

/-- Witness for C7's amended theorem at concrete inputs. -/
theorem chunk_string_checked_nonpos_witness :
    ((-1 : Int) ≤ 0)
      ∧ (((-1 : Int) = 0 → chunk_string_checked ['a'] (-1)
            = Except.error ("range() arg 3 must not be zero".toList))
        ∧ ((-1 : Int) < 0 → chunk_string_checked ['a'] (-1) = Except.ok [])) :=
  ⟨by decide, chunk_string_checked_nonpos ['a'] (-1) (by decide)⟩

/-- Embedding of `get_review_prompt`: the f-string template with the
caller-supplied extra prompt interpolated at its placeholder. -/
def get_review_prompt (extra_prompt : PyString) : PyString :=
  "\n    This is a pull request or a part of a pull request if the pull request is too large.\n    Please assume you review this PR as a great software engineer and a great security engineer.\n    Can you tell me the issues with differences in a pull request and provide suggestions to improve it?\n    You can provide a summary of the review and comments about issues by file, if any important issues are found.\n\n    ".toList
    ++ extra_prompt ++ "\n    ".toList

/-- Embedding of `get_summarize_prompt`: a fixed template taking no
arguments. -/
def get_summarize_prompt : PyString :=
  "\n    This is a pull request of a set of reviews of a pull request.\n    Those are generated by OpenAI\x27s GPT.\n    Can you summarized them?\n    It would be good to focus on highlighting issues and providing suggestions to improve the pull request.\n    ".toList

/-- One request to the completion service, identified by its two-message
instruction/content pair (`role: system` and `role: user`).  The model
identifier and the five sampling parameters of `openai.ChatCompletion.create`
are forwarded unchanged to every request and never influence control
flow, so they are omitted from the embedding. -/
structure ChatRequest where
  system : PyString
  user : PyString
deriving DecidableEq

/-- Result of `get_review`, extended with the explicit trace of requests
issued to the completion service: the per-chunk review requests, in
order, and the (zero or one) summarization requests. -/
structure ReviewResult where
  chunked_reviews : List PyString
  summarized_review : PyString
  chunk_requests : List ChatRequest
  summarize_requests : List ChatRequest
deriving DecidableEq

/-- Embedding of `get_review`.  The completion service is abstracted as
the pure oracle `complete`, mapping a request to the text
`response.choices[0].message["content"]`.  The source chunks the diff,
issues one review request per chunk collecting the results in order,
returns early when exactly one chunked review was produced, and
otherwise issues one summarization request over the newline-joined
chunked reviews. -/
def get_review (complete : ChatRequest → PyString)
    (diff extra_prompt : PyString) (prompt_chunk_size : Nat) : ReviewResult :=
  let review_prompt := get_review_prompt extra_prompt
  let chunked_diff_list := chunk_string diff prompt_chunk_size
  let chunked_reviews :=
    chunked_diff_list.map (fun chunked_diff => complete ⟨review_prompt, chunked_diff⟩)
  let chunk_requests :=
    chunked_diff_list.map (fun chunked_diff => ChatRequest.mk review_prompt chunked_diff)
  if chunked_reviews.length = 1 then
    ⟨chunked_reviews, chunked_reviews.headD [], chunk_requests, []⟩
  else
    let summarize_request : ChatRequest :=
      ⟨get_summarize_prompt, List.intercalate ['\n'] chunked_reviews⟩
    ⟨chunked_reviews, complete summarize_request, chunk_requests, [summarize_request]⟩

/-- Embedding of `format_review_comment`: a single review is returned
unchanged, and multiple reviews are wrapped in the collapsible-details
f-string with the newline-joined reviews as the body. -/
def format_review_comment (summarized_review : PyString)
    (chunked_reviews : List PyString) : PyString :=
  if chunked_reviews.length = 1 then
    summarized_review
  else
    let unioned_reviews := List.intercalate ['\n'] chunked_reviews
    "<details>\n    <summary>".toList ++ summarized_review
      ++ "</summary>\n    ".toList ++ unioned_reviews
      ++ "\n    </details>\n    ".toList

/-- The list of required environment variables checked by
`check_required_env_vars`, in source order. -/
def required_env_vars : List PyString :=
  ["OPENAI_API_KEY".toList,
   "GITHUB_TOKEN".toList,
   "GITHUB_REPOSITORY".toList,
   "GITHUB_PULL_REQUEST_NUMBER".toList,
   "GIT_COMMIT_HASH".toList]

/-- Embedding of `check_required_env_vars`: the process environment is a
partial map from variable names to values, and the loop raises
`ValueError` at the first required variable whose `os.getenv` is `None`. -/
def check_required_env_vars (env : PyString → Option PyString) :
    Except PyString Unit :=
  match required_env_vars.find? (fun v => (env v).isNone) with
  | some v => Except.error (v ++ " is not set".toList)
  | none => Except.ok ()

/-- The outbound HTTP POST built by `create_a_comment_to_pull_request`:
its headers, target URL, and JSON payload, the latter modelled as the
ordered association list of the Python dict literal. -/
structure PublishRequest where
  headers : List (PyString × PyString)
  url : PyString
  data : List (PyString × PyString)
deriving DecidableEq

/-- Embedding of `create_a_comment_to_pull_request`, which builds the
headers, payload and URL and performs one POST (the transport itself is
outside the model; the built request is returned). -/
def create_a_comment_to_pull_request (github_token github_repository : PyString)
    (pull_request_number : Nat) (git_commit_hash body : PyString) :
    PublishRequest :=
  { headers := [("Accept".toList, "application/vnd.github.v3.patch".toList),
                ("authorization".toList, "Bearer ".toList ++ github_token)],
    url := "https://api.github.com/repos/".toList ++ github_repository
            ++ "/pulls/".toList ++ (toString pull_request_number).toList
            ++ "/reviews".toList,
    data := [("body".toList, body),
             ("commit_id".toList, git_commit_hash),
             ("event".toList, "COMMENT".toList)] }

/-- Embedding of `main` after command-line parsing: the observable
behaviour is the trace of completion-service requests, the trace of
publish requests, and either success or the `ValueError` aborting the
run.  The environment check runs first; only then is `get_review`
invoked and the comment published.  Python `int()` applied to the pull
request number from the environment is modelled as a decimal parse
(`String.toNat?`), whose failure — like in the source — can only happen
after the review requests were issued. -/
def run_main (env : PyString → Option PyString)
    (complete : ChatRequest → PyString)
    (diff extra_prompt : PyString) (diff_chunk_size : Nat) :
    List ChatRequest × List PublishRequest × Except PyString Unit :=
  match check_required_env_vars env with
  | Except.error e => ([], [], Except.error e)
  | Except.ok _ =>
    let res := get_review complete diff extra_prompt diff_chunk_size
    let review_comment :=
      format_review_comment res.summarized_review res.chunked_reviews
    let completion_calls := res.chunk_requests ++ res.summarize_requests
    match (String.mk ((env "GITHUB_PULL_REQUEST_NUMBER".toList).getD [])).toNat? with
    | none => (completion_calls, [], Except.error "invalid literal for int".toList)
    | some num =>
      (completion_calls,
       [create_a_comment_to_pull_request
          ((env "GITHUB_TOKEN".toList).getD [])
          ((env "GITHUB_REPOSITORY".toList).getD [])
          num
          ((env "GIT_COMMIT_HASH".toList).getD [])
          review_comment],
       Except.ok ())

/-- The `chunked_reviews` component of `get_review` is the list of oracle
results for the chunks, in order, whichever branch is taken. -/
theorem get_review_chunked_reviews_eq (complete : ChatRequest → PyString)
    (diff extra_prompt : PyString) (n : Nat) :
    (get_review complete diff extra_prompt n).chunked_reviews
      = (chunk_string diff n).map
          (fun c => complete ⟨get_review_prompt extra_prompt, c⟩) := by
  simp only [get_review]
  split <;> rfl

/-- C4 counterexample: on the empty diff the review loop produces zero
chunked reviews, yet `get_review` still issues a summarization request
(the early return fires only when the count is exactly one), so
\"summarize iff more than one chunk review\" fails. -/
theorem get_review_summarize_iff_cex :
    (get_review (fun _ => "R".toList) [] [] 1).summarize_requests ≠ []
      ∧ ¬ (1 < (get_review (fun _ => "R".toList) [] [] 1).chunked_reviews.length) := by
  constructor
  · simp [get_review, chunk_string_nil]
  · simp [get_review, chunk_string_nil]

/-- C4 amended: a summarization request is issued iff the number of
chunked reviews differs from one (more than one, or zero); when issued it
is exactly one request whose user content is the chunked reviews joined
with newline separators in order, and its oracle result becomes the
summarized review. -/
theorem get_review_summarize_amended (complete : ChatRequest → PyString)
    (diff extra_prompt : PyString) (n : Nat) (hn : 0 < n) :
    ((get_review complete diff extra_prompt n).summarize_requests ≠ []
        ↔ (get_review complete diff extra_prompt n).chunked_reviews.length ≠ 1)
      ∧ ((get_review complete diff extra_prompt n).chunked_reviews.length ≠ 1 →
          (get_review complete diff extra_prompt n).summarize_requests
            = [⟨get_summarize_prompt,
                List.intercalate ['\n']
                  (get_review complete diff extra_prompt n).chunked_reviews⟩]
          ∧ (get_review complete diff extra_prompt n).summarized_review
            = complete ⟨get_summarize_prompt,
                List.intercalate ['\n']
                  (get_review complete diff extra_prompt n).chunked_reviews⟩) := by
  by_cases h : (chunk_string diff n).length = 1
  · simp [get_review, h]
  · simp [get_review, h]

/-- Witness for C4's amended theorem at a concrete input. -/
theorem get_review_summarize_amended_witness :
    0 < 2 ∧ (((get_review (fun _ => "R".toList) "abcd".toList [] 2).summarize_requests ≠ []
        ↔ (get_review (fun _ => "R".toList) "abcd".toList [] 2).chunked_reviews.length ≠ 1)
      ∧ ((get_review (fun _ => "R".toList) "abcd".toList [] 2).chunked_reviews.length ≠ 1 →
          (get_review (fun _ => "R".toList) "abcd".toList [] 2).summarize_requests
            = [⟨get_summarize_prompt,
                List.intercalate ['\n']
                  (get_review (fun _ => "R".toList) "abcd".toList [] 2).chunked_reviews⟩]
          ∧ (get_review (fun _ => "R".toList) "abcd".toList [] 2).summarized_review
            = (fun _ => "R".toList) (ChatRequest.mk get_summarize_prompt
                (List.intercalate ['\n']
                  (get_review (fun _ => "R".toList) "abcd".toList [] 2).chunked_reviews)))) :=
  ⟨by decide,
   get_review_summarize_amended (fun _ => "R".toList) "abcd".toList [] 2 (by decide)⟩

/-- C5: when exactly one chunked review `r` was produced, `get_review`
returns `r` itself as the summarized review, issues no summarization
request, and `format_review_comment r [r]` returns `r` unchanged. -/
theorem get_review_single_chunk (complete : ChatRequest → PyString)
    (diff extra_prompt : PyString) (n : Nat) (r : PyString)
    (hr : (get_review complete diff extra_prompt n).chunked_reviews = [r]) :
    (get_review complete diff extra_prompt n).summarized_review = r
      ∧ (get_review complete diff extra_prompt n).summarize_requests = []
      ∧ format_review_comment r [r] = r := by
  rw [get_review_chunked_reviews_eq] at hr
  have hlen : (chunk_string diff n).length = 1 := by
    have h2 := congrArg List.length hr
    simpa using h2
  obtain ⟨c, hc⟩ := List.length_eq_one.mp hlen
  rw [hc] at hr
  simp only [List.map_cons, List.map_nil, List.cons.injEq, and_true] at hr
  refine ⟨?_, ?_, ?_⟩
  · simp [get_review, hc, hr]
  · simp [get_review, hc]
  · simp [format_review_comment]

/-- Witness for C5 at a concrete input with a single chunk. -/
theorem get_review_single_chunk_witness :
    (get_review (fun _ => "R".toList) ['a'] [] 1).chunked_reviews = ["R".toList]
      ∧ ((get_review (fun _ => "R".toList) ['a'] [] 1).summarized_review = "R".toList
        ∧ (get_review (fun _ => "R".toList) ['a'] [] 1).summarize_requests = []
        ∧ format_review_comment "R".toList ["R".toList] = "R".toList) :=
  ⟨by simp [get_review, chunk_string, List.intercalate],
   get_review_single_chunk (fun _ => "R".toList) ['a'] [] 1 "R".toList
     (by simp [get_review, chunk_string, List.intercalate])⟩

/-- C6: with more than one chunked review, the formatted comment is the
collapsible-details rendering: the details opening tag, the summarized
review inside summary tags, the newline-joined chunked reviews in order,
and the details closing tag. -/
theorem format_review_comment_multi (summarized_review : PyString)
    (chunked_reviews : List PyString) (h : 1 < chunked_reviews.length) :
    format_review_comment summarized_review chunked_reviews
      = "<details>\n    <summary>".toList ++ summarized_review
          ++ "</summary>\n    ".toList
          ++ List.intercalate ['\n'] chunked_reviews
          ++ "\n    </details>\n    ".toList := by
  have hne : ¬ (chunked_reviews.length = 1) := by omega
  simp [format_review_comment, hne]

/-- Witness for C6 at a concrete input. -/
theorem format_review_comment_multi_witness :
    1 < (["A".toList, "B".toList] : List PyString).length
      ∧ format_review_comment "S".toList ["A".toList, "B".toList]
          = "<details>\n    <summary>".toList ++ "S".toList
              ++ "</summary>\n    ".toList
              ++ List.intercalate ['\n'] ["A".toList, "B".toList]
              ++ "\n    </details>\n    ".toList :=
  ⟨by decide,
   format_review_comment_multi "S".toList ["A".toList, "B".toList] (by decide)⟩

/-- C9: the outbound comment-creation payload contains exactly the three
fields `body`, `commit_id` and `event`, in that order, with `event`
always the fixed string `COMMENT`, for all inputs. -/
theorem create_comment_payload (github_token github_repository : PyString)
    (pull_request_number : Nat) (git_commit_hash body : PyString) :
    (create_a_comment_to_pull_request github_token github_repository
        pull_request_number git_commit_hash body).data
      = [("body".toList, body),
         ("commit_id".toList, git_commit_hash),
         ("event".toList, "COMMENT".toList)] := rfl

/-- C10: on the empty diff `get_review` issues zero per-chunk requests
yet still issues exactly one summarization request whose user content is
empty, returns the empty chunked-review list paired with that
summarization result, and `format_review_comment` then wraps it in the
collapsible form with an empty body. -/
theorem get_review_empty_diff (complete : ChatRequest → PyString)
    (extra_prompt : PyString) (n : Nat) (hn : 0 < n) :
    (get_review complete [] extra_prompt n).chunk_requests = []
      ∧ (get_review complete [] extra_prompt n).chunked_reviews = []
      ∧ (get_review complete [] extra_prompt n).summarize_requests
          = [⟨get_summarize_prompt, []⟩]
      ∧ (get_review complete [] extra_prompt n).summarized_review
          = complete ⟨get_summarize_prompt, []⟩
      ∧ format_review_comment (get_review complete [] extra_prompt n).summarized_review
            (get_review complete [] extra_prompt n).chunked_reviews
          = "<details>\n    <summary>".toList
              ++ complete ⟨get_summarize_prompt, []⟩
              ++ "</summary>\n    ".toList
              ++ "\n    </details>\n    ".toList := by
  simp [get_review, chunk_string_nil, format_review_comment, List.intercalate]

/-- Witness for C10 at a concrete input. -/
theorem get_review_empty_diff_witness :
    0 < 3 ∧ ((get_review (fun _ => "R".toList) [] [] 3).chunk_requests = []
      ∧ (get_review (fun _ => "R".toList) [] [] 3).chunked_reviews = []
      ∧ (get_review (fun _ => "R".toList) [] [] 3).summarize_requests
          = [⟨get_summarize_prompt, []⟩]
      ∧ (get_review (fun _ => "R".toList) [] [] 3).summarized_review = "R".toList
      ∧ format_review_comment (get_review (fun _ => "R".toList) [] [] 3).summarized_review
            (get_review (fun _ => "R".toList) [] [] 3).chunked_reviews
          = "<details>\n    <summary>".toList
              ++ "R".toList
              ++ "</summary>\n    ".toList
              ++ "\n    </details>\n    ".toList) :=
  ⟨by decide, get_review_empty_diff (fun _ => "R".toList) [] 3 (by decide)⟩

/-- A missing required environment variable makes
`check_required_env_vars` raise. -/
theorem check_required_env_vars_missing (env : PyString → Option PyString)
    (h : ∃ v ∈ required_env_vars, env v = none) :
    ∃ msg, check_required_env_vars env = Except.error msg := by
  obtain ⟨v, hv, he⟩ := h
  unfold check_required_env_vars
  cases hf : required_env_vars.find? (fun v => (env v).isNone) with
  | none =>
    exfalso
    rw [List.find?_eq_none] at hf
    exact hf v hv (by simp [he])
  | some w => exact ⟨w ++ " is not set".toList, rfl⟩

/-- C8: with any required environment value absent, the run aborts with
an error before issuing any network call: no completion request and no
publish request appears in the trace. -/
theorem run_main_missing_env (env : PyString → Option PyString)
    (complete : ChatRequest → PyString) (diff extra_prompt : PyString)
    (diff_chunk_size : Nat)
    (h : ∃ v ∈ required_env_vars, env v = none) :
    ∃ msg, run_main env complete diff extra_prompt diff_chunk_size
        = ([], [], Except.error msg) := by
  obtain ⟨msg, hmsg⟩ := check_required_env_vars_missing env h
  refine ⟨msg, ?_⟩
  unfold run_main
  rw [hmsg]

/-- Witness for C8 with the entirely empty environment. -/
theorem run_main_missing_env_witness :
    (∃ v ∈ required_env_vars, (fun _ : PyString => (none : Option PyString)) v = none)
      ∧ ∃ msg, run_main (fun _ => none) (fun _ => "R".toList) "d".toList [] 3
          = ([], [], Except.error msg) :=
  ⟨⟨"OPENAI_API_KEY".toList, by simp [required_env_vars], rfl⟩,
   run_main_missing_env (fun _ => none) (fun _ => "R".toList) "d".toList [] 3
     ⟨"OPENAI_API_KEY".toList, by simp [required_env_vars], rfl⟩⟩
